import Mathlib

/-!
Shallow embedding of the projected Gauss-Seidel constraint solver from
`src/physics/solver/gs.go` (package `solver` of the g3n engine physics
module).  Go `float32` values are modelled as exact rationals `ℚ`; Go
slices as Lean lists; the mutable solver object as a record that `Solve`
threads explicitly, returning the updated record together with the Go
`int` result.  The `Equation`/`Body` capability interfaces, the embedded
`Solver` and `Solution` structs and the `math32` vector helpers are not
under `src/`; those parts are modelled from the spec (sections 3 and 4.1)
and marked as such below.
-/

namespace GSolver

/-- Modelled from the spec: `math32.Vector3`, a 3D vector (not under
`src/`). Components are exact rationals standing for the Go `float32`s. -/
structure Vector3 where
  x : ℚ
  y : ℚ
  z : ℚ
deriving DecidableEq

/-- Modelled from the spec: the zero 3D vector. -/
def Vector3.zero : Vector3 := ⟨0, 0, 0⟩

/-- Modelled from the spec: componentwise vector addition
(`math32.Vector3.Add`, which the solver uses to accumulate deltas). -/
def Vector3.add (a b : Vector3) : Vector3 := ⟨a.x + b.x, a.y + b.y, a.z + b.z⟩

/-- Modelled from the spec: scaling of a vector by a scalar
(`math32.Vector3.MultiplyScalar`). -/
def Vector3.multiplyScalar (v : Vector3) (s : ℚ) : Vector3 := ⟨v.x * s, v.y * s, v.z * s⟩

/-- Modelled from the spec: the dot product of two 3D vectors. -/
def Vector3.dot (a b : Vector3) : ℚ := a.x * b.x + a.y * b.y + a.z * b.z

/-- Modelled from the spec: `math32.Matrix3`, a 3x3 matrix stored
column-major as in `math32` (entries `m0..m8`, column `c` being
`(m(3c), m(3c+1), m(3c+2))`). -/
structure Matrix3 where
  m0 : ℚ
  m1 : ℚ
  m2 : ℚ
  m3 : ℚ
  m4 : ℚ
  m5 : ℚ
  m6 : ℚ
  m7 : ℚ
  m8 : ℚ
deriving DecidableEq

/-- Modelled from the spec: the zero 3x3 matrix (the inverse inertia of a
fixed body). -/
def Matrix3.zero : Matrix3 := ⟨0, 0, 0, 0, 0, 0, 0, 0, 0⟩

/-- Modelled from the spec: matrix-vector product
(`math32.Vector3.ApplyMatrix3`), used to transform the rotational
Jacobian part by the inverse-inertia tensor. -/
def Vector3.applyMatrix3 (v : Vector3) (m : Matrix3) : Vector3 :=
  ⟨m.m0 * v.x + m.m3 * v.y + m.m6 * v.z,
   m.m1 * v.x + m.m4 * v.y + m.m7 * v.z,
   m.m2 * v.x + m.m5 * v.y + m.m8 * v.z⟩

/-- Modelled from the spec: the `Body` capability (spec section 3): a
stable zero-based `index` addressing the Solution arrays, the inverse
mass `invMassSolve` used during solving, and the world-frame inverse
inertia tensor `invInertiaWorldSolve`. -/
structure Body where
  index : ℕ
  invMassSolve : ℚ
  invInertiaWorldSolve : Matrix3
deriving DecidableEq

/-- Modelled from the spec: a Jacobian element `JeA`/`JeB`, decomposable
into a 3D spatial (linear) part and a 3D rotational part. -/
structure JacobianElement where
  spatial : Vector3
  rotational : Vector3
deriving DecidableEq

/-- Modelled from the spec: `JacobianElement.MultiplyVectors`, the dot
product of the 6-component Jacobian row against a 6-component
(velocity, angular velocity) state. -/
def JacobianElement.multiplyVectors (je : JacobianElement) (v w : Vector3) : ℚ :=
  je.spatial.dot v + je.rotational.dot w

/-- Modelled from the spec: the `Equation` capability (spec section 3).
`computeC`, `eps`, `minForce`, `maxForce` are the per-step scalar
coefficients; `computeB` is the velocity bias as a function of the
timestep `h`; `jeA`/`jeB` the per-body Jacobian elements; `bodyA`/`bodyB`
the two participating bodies; `multiplier` the mutable output written by
`SetMultiplier`. -/
structure Equation where
  bodyA : Body
  bodyB : Body
  computeC : ℚ
  computeB : ℚ → ℚ
  eps : ℚ
  minForce : ℚ
  maxForce : ℚ
  jeA : JacobianElement
  jeB : JacobianElement
  multiplier : ℚ

/-- State of the `GaussSeidel` solver from `gs.go`.  The embedded `Solver`
struct (not under `src/`, modelled from the spec) contributes the owned
`equations` list; the embedded `Solution` struct contributes the
`VelocityDeltas` and `AngularVelocityDeltas` output arrays.  `maxIter` is
a Go `int`, modelled as `ℤ`. -/
structure GaussSeidel where
  equations : List Equation
  maxIter : ℤ
  tolerance : ℚ
  VelocityDeltas : List Vector3
  AngularVelocityDeltas : List Vector3
  solveInvCs : List ℚ
  solveBs : List ℚ
  solveLambda : List ℚ

/-- Embeds `NewGaussSeidel`: default `maxIter = 10`, `tolerance = 1e-7`,
all slices empty. -/
def NewGaussSeidel : GaussSeidel :=
  ⟨[], 10, 1 / 10000000, [], [], [], [], []⟩

/-- Embeds `GaussSeidel.Reset`: truncates all working slices to length
zero (`s[0:0]`); at the value level they become empty lists. -/
def GaussSeidel.Reset (gs : GaussSeidel) : GaussSeidel :=
  { gs with VelocityDeltas := [], AngularVelocityDeltas := [],
            solveInvCs := [], solveBs := [], solveLambda := [] }

/-- The per-equation working record: the equation together with its
precomputed `solveInvCs`/`solveBs` entries and its running `solveLambda`
entry (the Go code keeps these in three parallel slices indexed like
`equations`; bundling them positionally is the same data). -/
structure EqItem where
  eq : Equation
  invC : ℚ
  b : ℚ
  lam : ℚ

/-- Embeds the line `GWlambda := jeA.MultiplyVectors(&vA, &wA) +
jeB.MultiplyVectors(&vB, &wB)` of `Solve`. -/
def gsGWlambda (eq : Equation) (vA wA vB wB : Vector3) : ℚ :=
  eq.jeA.multiplyVectors vA wA + eq.jeB.multiplyVectors vB wB

/-- Embeds the line `deltaLambda := gs.solveInvCs[j] * (gs.solveBs[j] -
GWlambda - eq.Eps()*lambdaJ)` of `Solve`. -/
def gsDeltaLambdaUnclamped (invC b epsJ lamJ gw : ℚ) : ℚ :=
  invC * (b - gw - epsJ * lamJ)

/-- Embeds the clamp in `Solve`: if `lambdaJ+deltaLambda` leaves the
`[MinForce, MaxForce]` interval, `deltaLambda` is replaced so that the
new accumulated impulse lands exactly on the violated bound. -/
def gsClampDeltaLambda (eq : Equation) (lamJ dl : ℚ) : ℚ :=
  if lamJ + dl < eq.minForce then eq.minForce - lamJ
  else if lamJ + dl > eq.maxForce then eq.maxForce - lamJ
  else dl

/-- Result of processing one equation inside an iteration. -/
structure StepOut where
  item : EqItem
  vd : List Vector3
  ad : List Vector3
  dAbs : ℚ

/-- Embeds the body of the inner `for j` loop of `Solve`: read the current
deltas of both bodies, compute `GWlambda` and the clamped `deltaLambda`,
accumulate it into `lambda[j]`, report `|deltaLambda|`, and add the
impulse to the velocity and angular-velocity delta arrays (body A first,
then body B, each read-modify-write on the current array). -/
def solveEquationStep (it : EqItem) (vd ad : List Vector3) : StepOut :=
  let eq := it.eq
  let lambdaJ := it.lam
  let idxBodyA := eq.bodyA.index
  let idxBodyB := eq.bodyB.index
  let vA := vd.getD idxBodyA Vector3.zero
  let vB := vd.getD idxBodyB Vector3.zero
  let wA := ad.getD idxBodyA Vector3.zero
  let wB := ad.getD idxBodyB Vector3.zero
  let spatA := eq.jeA.spatial
  let spatB := eq.jeB.spatial
  let rotA := eq.jeA.rotational
  let rotB := eq.jeB.rotational
  let gw := gsGWlambda eq vA wA vB wB
  let deltaLambda := gsClampDeltaLambda eq lambdaJ
    (gsDeltaLambdaUnclamped it.invC it.b eq.eps lambdaJ gw)
  let vd1 := vd.set idxBodyA ((vd.getD idxBodyA Vector3.zero).add
    (spatA.multiplyScalar (eq.bodyA.invMassSolve * deltaLambda)))
  let vd2 := vd1.set idxBodyB ((vd1.getD idxBodyB Vector3.zero).add
    (spatB.multiplyScalar (eq.bodyB.invMassSolve * deltaLambda)))
  let ad1 := ad.set idxBodyA ((ad.getD idxBodyA Vector3.zero).add
    ((rotA.applyMatrix3 eq.bodyA.invInertiaWorldSolve).multiplyScalar deltaLambda))
  let ad2 := ad1.set idxBodyB ((ad1.getD idxBodyB Vector3.zero).add
    ((rotB.applyMatrix3 eq.bodyB.invInertiaWorldSolve).multiplyScalar deltaLambda))
  ⟨{ it with lam := lambdaJ + deltaLambda }, vd2, ad2, |deltaLambda|⟩

/-- Result of one whole iteration (one pass over all equations). -/
structure PassOut where
  items : List EqItem
  vd : List Vector3
  ad : List Vector3
  tot : ℚ

/-- Embeds the inner `for j := 0; j < nEquations; j++` loop of `Solve`:
equations are processed strictly in list order, each step receiving the
delta arrays as updated by all earlier steps of the same iteration, and
`tot` accumulates `deltaLambdaTot`. -/
def solvePass : List EqItem → List Vector3 → List Vector3 → ℚ → PassOut
  | [], vd, ad, tot => ⟨[], vd, ad, tot⟩
  | it :: rest, vd, ad, tot =>
      let o := solveEquationStep it vd ad
      let r := solvePass rest o.vd o.ad (tot + o.dAbs)
      ⟨o.item :: r.items, r.vd, r.ad, r.tot⟩

/-- Result of the outer iteration loop: final working state plus the value
of the loop variable `iter` at exit (the break index, or the number of
completed iterations when the fuel ran out). -/
structure LoopOut where
  items : List EqItem
  vd : List Vector3
  ad : List Vector3
  iter : ℕ

/-- Embeds the outer `for iter = 0; iter < gs.maxIter; iter++` loop of
`Solve`, with `fuel` the number of remaining iterations (`maxIter.toNat`
at the top call) and `iter` the current loop index: run one pass; if
`deltaLambdaTot*deltaLambdaTot < tolSquared` break with the current
`iter`, else continue with `iter+1`. -/
def solveLoop (tolSquared : ℚ) : ℕ → ℕ → List EqItem → List Vector3 → List Vector3 → LoopOut
  | 0, iter, items, vd, ad => ⟨items, vd, ad, iter⟩
  | fuel + 1, iter, items, vd, ad =>
      let p := solvePass items vd ad 0
      if p.tot * p.tot < tolSquared then ⟨p.items, p.vd, p.ad, iter⟩
      else solveLoop tolSquared fuel (iter + 1) p.items p.vd p.ad

/-- The per-equation precomputation of `Solve` (the three appends filling
`solveInvCs`, `solveBs`, `solveLambda`): `invC = 1/ComputeC()`,
`b = ComputeB(h)`, `lambda = 0`, once per equation in equation order. -/
def GaussSeidel.initItems (gs : GaussSeidel) (h : ℚ) : List EqItem :=
  gs.equations.map (fun eq => ⟨eq, 1 / eq.computeC, eq.computeB h, 0⟩)

/-- Embeds `GaussSeidel.Solve(frameDelta, nBodies)`.  `h` is
`frameDelta.Seconds()`.  Effects in source order: `Reset`; append
`nBodies` zero vectors to each delta array; precompute the per-equation
caches; if there is at least one equation, run the iteration loop, write
`multiplier = lambda[j]/h` onto every equation in order, and return the
loop index plus one; otherwise return 0. -/
def GaussSeidel.Solve (gs0 : GaussSeidel) (h : ℚ) (nBodies : ℕ) : GaussSeidel × ℕ :=
  let gs := gs0.Reset
  let nEquations := gs.equations.length
  let vd0 := gs.VelocityDeltas ++ List.replicate nBodies Vector3.zero
  let ad0 := gs.AngularVelocityDeltas ++ List.replicate nBodies Vector3.zero
  let items0 := gs.initItems h
  if 0 < nEquations then
    let r := solveLoop (gs.tolerance * gs.tolerance) gs.maxIter.toNat 0 items0 vd0 ad0
    let eqsOut := r.items.map (fun it => { it.eq with multiplier := it.lam / h })
    ({ gs with equations := eqsOut,
               VelocityDeltas := r.vd, AngularVelocityDeltas := r.ad,
               solveInvCs := r.items.map EqItem.invC,
               solveBs := r.items.map EqItem.b,
               solveLambda := r.items.map EqItem.lam }, r.iter + 1)
  else
    ({ gs with VelocityDeltas := vd0, AngularVelocityDeltas := ad0,
               solveInvCs := items0.map EqItem.invC,
               solveBs := items0.map EqItem.b,
               solveLambda := items0.map EqItem.lam }, 0)

/-!
Helper lemmas about the embedding.
-/

/-- Reading at `i` after setting at a different index `j` is unchanged. -/
lemma getD_set_ne {α : Type} (l : List α) (j i : ℕ) (x d : α) (hij : i ≠ j) :
    (l.set j x).getD i d = l.getD i d := by
  simp [List.getD_eq_getElem?_getD, List.getElem?_set_ne (Ne.symm hij)]

/-- Setting index `i` to the default value leaves `getD i` at the default,
whether or not `i` is in range. -/
lemma getD_set_default {α : Type} (l : List α) (i : ℕ) (d : α) :
    (l.set i d).getD i d = d := by
  rw [List.getD_eq_getElem?_getD, List.getElem?_set_self']
  cases l[i]? <;> rfl

/-- One equation step only rewrites the running `lam`; the equation and its
precomputed coefficients are untouched. -/
lemma solveEquationStep_item_eq (it : EqItem) (vd ad : List Vector3) :
    (solveEquationStep it vd ad).item.eq = it.eq := rfl

lemma solveEquationStep_item_invC (it : EqItem) (vd ad : List Vector3) :
    (solveEquationStep it vd ad).item.invC = it.invC := rfl

lemma solveEquationStep_item_b (it : EqItem) (vd ad : List Vector3) :
    (solveEquationStep it vd ad).item.b = it.b := rfl

/-- The lambda accumulated by one equation step, written out as the clamped
Gauss-Seidel update read off the current delta arrays. -/
lemma solveEquationStep_item_lam (it : EqItem) (vd ad : List Vector3) :
    (solveEquationStep it vd ad).item.lam =
      it.lam + gsClampDeltaLambda it.eq it.lam
        (gsDeltaLambdaUnclamped it.invC it.b it.eq.eps it.lam
          (gsGWlambda it.eq (vd.getD it.eq.bodyA.index Vector3.zero)
            (ad.getD it.eq.bodyA.index Vector3.zero)
            (vd.getD it.eq.bodyB.index Vector3.zero)
            (ad.getD it.eq.bodyB.index Vector3.zero))) := rfl

/-- An iteration pass preserves any per-item projection that a single step
preserves. -/
lemma solvePass_items_map_of {α : Type} (f : EqItem → α)
    (hf : ∀ it vd ad, f (solveEquationStep it vd ad).item = f it) :
    ∀ (items : List EqItem) (vd ad : List Vector3) (tot : ℚ),
      (solvePass items vd ad tot).items.map f = items.map f := by
  intro items
  induction items with
  | nil => intro vd ad tot; rfl
  | cons it rest ih =>
      intro vd ad tot
      simp only [solvePass, List.map_cons]
      rw [hf, ih]

lemma solvePass_items_map_eq (items : List EqItem) (vd ad : List Vector3) (tot : ℚ) :
    (solvePass items vd ad tot).items.map EqItem.eq = items.map EqItem.eq :=
  solvePass_items_map_of EqItem.eq (fun _ _ _ => rfl) items vd ad tot

lemma solvePass_items_map_invC (items : List EqItem) (vd ad : List Vector3) (tot : ℚ) :
    (solvePass items vd ad tot).items.map EqItem.invC = items.map EqItem.invC :=
  solvePass_items_map_of EqItem.invC (fun _ _ _ => rfl) items vd ad tot

lemma solvePass_items_map_b (items : List EqItem) (vd ad : List Vector3) (tot : ℚ) :
    (solvePass items vd ad tot).items.map EqItem.b = items.map EqItem.b :=
  solvePass_items_map_of EqItem.b (fun _ _ _ => rfl) items vd ad tot

/-- The outer loop likewise preserves any step-invariant projection. -/
lemma solveLoop_items_map_of {α : Type} (f : EqItem → α)
    (hf : ∀ it vd ad, f (solveEquationStep it vd ad).item = f it) (tolSq : ℚ) :
    ∀ (fuel iter : ℕ) (items : List EqItem) (vd ad : List Vector3),
      (solveLoop tolSq fuel iter items vd ad).items.map f = items.map f := by
  intro fuel
  induction fuel with
  | zero => intro iter items vd ad; rfl
  | succ fuel ih =>
      intro iter items vd ad
      simp only [solveLoop]
      split
      · exact solvePass_items_map_of f hf items vd ad 0
      · rw [ih]; exact solvePass_items_map_of f hf items vd ad 0

lemma solveLoop_items_map_eq (tolSq : ℚ) (fuel iter : ℕ) (items : List EqItem)
    (vd ad : List Vector3) :
    (solveLoop tolSq fuel iter items vd ad).items.map EqItem.eq = items.map EqItem.eq :=
  solveLoop_items_map_of EqItem.eq (fun _ _ _ => rfl) tolSq fuel iter items vd ad

lemma initItems_map_eq (gs : GaussSeidel) (h : ℚ) :
    (gs.initItems h).map EqItem.eq = gs.equations := by
  simp only [GaussSeidel.initItems, List.map_map]
  exact List.map_id _ ▸ rfl

lemma initItems_length (gs : GaussSeidel) (h : ℚ) :
    (gs.initItems h).length = gs.equations.length := by
  simp [GaussSeidel.initItems]

lemma solveLoop_items_length (tolSq : ℚ) (fuel iter : ℕ) (items : List EqItem)
    (vd ad : List Vector3) :
    (solveLoop tolSq fuel iter items vd ad).items.length = items.length := by
  have := congrArg List.length (solveLoop_items_map_eq tolSq fuel iter items vd ad)
  simpa using this

/-- With no equations, `Solve` only resets and fills the zero deltas. -/
lemma solve_of_empty (gs : GaussSeidel) (h : ℚ) (n : ℕ) (he : gs.equations = []) :
    gs.Solve h n =
      ({ gs with VelocityDeltas := List.replicate n Vector3.zero,
                 AngularVelocityDeltas := List.replicate n Vector3.zero,
                 solveInvCs := [], solveBs := [], solveLambda := [] }, 0) := by
  simp only [GaussSeidel.Solve]
  rw [if_neg]
  · simp [GaussSeidel.Reset, GaussSeidel.initItems, he]
  · simp [GaussSeidel.Reset, he]

/-- With at least one equation, `Solve` is the iteration loop, started from
the freshly precomputed items and zero-filled delta arrays, followed by the
multiplier write-back, returning the loop exit index plus one. -/
lemma solve_of_ne (gs : GaussSeidel) (h : ℚ) (n : ℕ) (hne : gs.equations ≠ []) :
    gs.Solve h n =
      (let r := solveLoop (gs.tolerance * gs.tolerance) gs.maxIter.toNat 0
          (gs.initItems h) (List.replicate n Vector3.zero) (List.replicate n Vector3.zero)
       ({ gs with equations := r.items.map (fun it => { it.eq with multiplier := it.lam / h }),
                  VelocityDeltas := r.vd, AngularVelocityDeltas := r.ad,
                  solveInvCs := r.items.map EqItem.invC,
                  solveBs := r.items.map EqItem.b,
                  solveLambda := r.items.map EqItem.lam }, r.iter + 1)) := by
  simp only [GaussSeidel.Solve]
  rw [if_pos]
  · rfl
  · simpa [GaussSeidel.Reset, List.length_pos] using hne

/-- The result of `Solve` does not depend on the contents that previous
calls left in the Solution arrays or the three working buffers. -/
lemma solve_buffers_irrelevant (eqs : List Equation) (mi : ℤ) (tol : ℚ)
    (b1 b2 : List Vector3) (b3 b4 b5 : List ℚ)
    (c1 c2 : List Vector3) (c3 c4 c5 : List ℚ) (h : ℚ) (n : ℕ) :
    GaussSeidel.Solve ⟨eqs, mi, tol, b1, b2, b3, b4, b5⟩ h n =
      GaussSeidel.Solve ⟨eqs, mi, tol, c1, c2, c3, c4, c5⟩ h n := rfl

/-!
The iteration sequence of the loop, used to talk about convergence.
-/

/-- Working state of the iteration loop (item list plus the two delta
arrays). -/
structure WState where
  items : List EqItem
  vd : List Vector3
  ad : List Vector3

/-- One whole iteration (one pass over all equations). -/
def WState.next (s : WState) : WState :=
  let p := solvePass s.items s.vd s.ad 0
  ⟨p.items, p.vd, p.ad⟩

/-- The `deltaLambdaTot` accumulated by one pass from this state. -/
def WState.totErr (s : WState) : ℚ := (solvePass s.items s.vd s.ad 0).tot

/-- State after `k` whole iterations. -/
def WState.iterate (s : WState) : ℕ → WState
  | 0 => s
  | k + 1 => s.next.iterate k

lemma WState.iterate_succ (s : WState) (k : ℕ) :
    s.iterate (k + 1) = s.next.iterate k := rfl

/-- The state `Solve` starts iterating from: freshly precomputed items and
zero-filled delta arrays of length `nBodies`. -/
def GaussSeidel.initState (gs : GaussSeidel) (h : ℚ) (nBodies : ℕ) : WState :=
  ⟨gs.initItems h, List.replicate nBodies Vector3.zero, List.replicate nBodies Vector3.zero⟩

/-- The convergence check of iteration index `k` of `Solve gs h nBodies`
passes: the total impulse change of the pass run at iteration `k`
satisfies `deltaLambdaTot² < tolerance²`. -/
def GaussSeidel.convergedAtIter (gs : GaussSeidel) (h : ℚ) (nBodies k : ℕ) : Prop :=
  ((gs.initState h nBodies).iterate k).totErr * ((gs.initState h nBodies).iterate k).totErr
    < gs.tolerance * gs.tolerance

instance (gs : GaussSeidel) (h : ℚ) (nBodies k : ℕ) :
    Decidable (gs.convergedAtIter h nBodies k) := by
  unfold GaussSeidel.convergedAtIter; infer_instance

/-- If no iteration converges before the fuel runs out, the loop exits with
`iter` advanced by the whole fuel. -/
lemma solveLoop_iter_exhaust (tolSq : ℚ) :
    ∀ (fuel iter : ℕ) (s : WState),
      (∀ k, k < fuel → ¬ (s.iterate k).totErr * (s.iterate k).totErr < tolSq) →
      (solveLoop tolSq fuel iter s.items s.vd s.ad).iter = iter + fuel := by
  intro fuel
  induction fuel with
  | zero => intro iter s _; rfl
  | succ fuel ih =>
      intro iter s hnc
      have h0 : ¬ (solvePass s.items s.vd s.ad 0).tot * (solvePass s.items s.vd s.ad 0).tot
          < tolSq := hnc 0 (Nat.succ_pos _)
      simp only [solveLoop]
      rw [if_neg h0]
      have h2 := ih (iter + 1) s.next
        (fun k hk => hnc (k + 1) (by omega))
      exact h2.trans (by omega)

/-- If the first converging iteration index is `k < fuel`, the loop breaks
there and exits with `iter` advanced by `k`. -/
lemma solveLoop_iter_break (tolSq : ℚ) :
    ∀ (fuel k iter : ℕ) (s : WState), k < fuel →
      (∀ i, i < k → ¬ (s.iterate i).totErr * (s.iterate i).totErr < tolSq) →
      (s.iterate k).totErr * (s.iterate k).totErr < tolSq →
      (solveLoop tolSq fuel iter s.items s.vd s.ad).iter = iter + k := by
  intro fuel
  induction fuel with
  | zero => intro k iter s hk; omega
  | succ fuel ih =>
      intro k iter s hk hnc hc
      cases k with
      | zero =>
          have hc0 : (solvePass s.items s.vd s.ad 0).tot * (solvePass s.items s.vd s.ad 0).tot
              < tolSq := hc
          simp only [solveLoop]
          rw [if_pos hc0]
          rfl
      | succ m =>
          have h0 : ¬ (solvePass s.items s.vd s.ad 0).tot * (solvePass s.items s.vd s.ad 0).tot
              < tolSq := hnc 0 (Nat.succ_pos _)
          simp only [solveLoop]
          rw [if_neg h0]
          have h2 := ih m (iter + 1) s.next (by omega)
            (fun i hi => hnc (i + 1) (by omega)) hc
          exact h2.trans (by omega)

/-- The return value of `Solve` with at least one equation is the loop
exit index plus one. -/
lemma solve_snd_of_ne (gs : GaussSeidel) (h : ℚ) (n : ℕ) (hne : gs.equations ≠ []) :
    (gs.Solve h n).2 =
      (solveLoop (gs.tolerance * gs.tolerance) gs.maxIter.toNat 0
        (gs.initState h n).items (gs.initState h n).vd (gs.initState h n).ad).iter + 1 := by
  rw [solve_of_ne gs h n hne]
  rfl

/-- A one-equation system that never converges: both bodies fixed, so each
iteration produces the same unit `deltaLambda`, far above the default
tolerance, until the force clamp (never reached within 3 iterations). -/
def eqC1 : Equation :=
  { bodyA := ⟨0, 0, Matrix3.zero⟩, bodyB := ⟨0, 0, Matrix3.zero⟩,
    computeC := 1, computeB := fun _ => 1, eps := 0,
    minForce := -1000000, maxForce := 1000000,
    jeA := ⟨⟨1, 0, 0⟩, ⟨0, 0, 0⟩⟩, jeB := ⟨⟨0, 0, 0⟩, ⟨0, 0, 0⟩⟩, multiplier := 0 }

/-- A solver holding that system with `maxIterations = 3`. -/
def gsC1 : GaussSeidel := { NewGaussSeidel with equations := [eqC1], maxIter := 3 }

/-- C1 (amended): with at least one equation, `Solve` returns the index of
the iteration at which the loop stopped plus 1, where a system whose
convergence check first passes at iteration `k < maxIterations` stops at
index `k` (returning `k+1`), but a system that never converges within
`maxIterations` iterations stops at index `maxIterations` and returns
`maxIterations + 1` — the return value is NOT capped at `maxIterations`. -/
theorem gs_solve_iteration_count (gs : GaussSeidel) (h : ℚ) (n : ℕ)
    (hne : gs.equations ≠ []) :
    ((∀ k, k < gs.maxIter.toNat → ¬ gs.convergedAtIter h n k) →
      (gs.Solve h n).2 = gs.maxIter.toNat + 1) ∧
    (∀ k, k < gs.maxIter.toNat → (∀ i, i < k → ¬ gs.convergedAtIter h n i) →
      gs.convergedAtIter h n k → (gs.Solve h n).2 = k + 1) := by
  constructor
  · intro hnc
    rw [solve_snd_of_ne gs h n hne,
      solveLoop_iter_exhaust (gs.tolerance * gs.tolerance) gs.maxIter.toNat 0
        (gs.initState h n) hnc]
    omega
  · intro k hk hni hc
    rw [solve_snd_of_ne gs h n hne,
      solveLoop_iter_break (gs.tolerance * gs.tolerance) gs.maxIter.toNat k 0
        (gs.initState h n) hk hni hc]
    omega

set_option maxHeartbeats 1000000 in
/-- C1 counterexample: the claim says a never-converging system with
`maxIterations = 3` returns exactly 3; on `gsC1` (each iteration changes
lambda by exactly 1, so the convergence check never passes) the code
returns 4. -/
theorem gs_solve_iteration_count_cex :
    (gsC1.Solve 1 1).2 = 4 ∧ ¬ (gsC1.Solve 1 1).2 = 3 := by
  have h4 : (gsC1.Solve 1 1).2 = 4 := by
    rw [solve_snd_of_ne gsC1 1 1 (by simp [gsC1])]
    norm_num [GaussSeidel.initState, GaussSeidel.initItems, gsC1, eqC1,
      NewGaussSeidel, solveLoop, solvePass, solveEquationStep, gsGWlambda,
      gsDeltaLambdaUnclamped, gsClampDeltaLambda, JacobianElement.multiplyVectors,
      Vector3.dot, Vector3.add, Vector3.multiplyScalar, Vector3.applyMatrix3,
      Vector3.zero, Matrix3.zero, Int.toNat]
  exact ⟨h4, by rw [h4]; omega⟩

/-- A one-equation system whose very first convergence check passes: the
bias is 0 and nothing moves, so the first pass changes lambda by 0. -/
def eqC1w : Equation :=
  { eqC1 with computeB := fun _ => 0, minForce := -5, maxForce := 5 }

/-- A solver holding that immediately-converging system. -/
def gsC1w : GaussSeidel := { NewGaussSeidel with equations := [eqC1w] }

/-- Witness for C1 (amended) at a concrete input: `gsC1w` converges at
iteration index 0 and `Solve` returns `0 + 1 = 1`. -/
theorem gs_solve_iteration_count_witness : (gsC1w.Solve 1 1).2 = 0 + 1 := by
  have hconv : gsC1w.convergedAtIter 1 1 0 := by
    norm_num [GaussSeidel.convergedAtIter, WState.iterate, WState.totErr,
      GaussSeidel.initState, GaussSeidel.initItems, gsC1w, eqC1w, eqC1,
      NewGaussSeidel, solvePass, solveEquationStep, gsGWlambda,
      gsDeltaLambdaUnclamped, gsClampDeltaLambda, JacobianElement.multiplyVectors,
      Vector3.dot, Vector3.add, Vector3.multiplyScalar, Vector3.applyMatrix3,
      Vector3.zero, Matrix3.zero]
  exact (gs_solve_iteration_count gsC1w 1 1 (by simp [gsC1w])).2 0
    (by decide) (fun i hi => absurd hi (by omega)) hconv

instance : Inhabited Vector3 := ⟨Vector3.zero⟩

instance : Inhabited JacobianElement := ⟨⟨Vector3.zero, Vector3.zero⟩⟩

instance : Inhabited Body := ⟨⟨0, 0, Matrix3.zero⟩⟩

instance : Inhabited Equation :=
  ⟨⟨default, default, 0, fun _ => 0, 0, 0, 0, default, default, 0⟩⟩

/-- The whole iteration loop of a `Solve gs h n` call with its actual
arguments: squared tolerance, `maxIter.toNat` fuel, fresh items, zero
deltas. -/
def GaussSeidel.loopResult (gs : GaussSeidel) (h : ℚ) (n : ℕ) : LoopOut :=
  solveLoop (gs.tolerance * gs.tolerance) gs.maxIter.toNat 0 (gs.initItems h)
    (List.replicate n Vector3.zero) (List.replicate n Vector3.zero)

lemma solve_equations_of_ne (gs : GaussSeidel) (h : ℚ) (n : ℕ) (hne : gs.equations ≠ []) :
    (gs.Solve h n).1.equations =
      (gs.loopResult h n).items.map (fun it => { it.eq with multiplier := it.lam / h }) := by
  rw [solve_of_ne gs h n hne]
  rfl

lemma solve_solveLambda_of_ne (gs : GaussSeidel) (h : ℚ) (n : ℕ) (hne : gs.equations ≠ []) :
    (gs.Solve h n).1.solveLambda = (gs.loopResult h n).items.map EqItem.lam := by
  rw [solve_of_ne gs h n hne]
  rfl

lemma solve_vd_of_ne (gs : GaussSeidel) (h : ℚ) (n : ℕ) (hne : gs.equations ≠ []) :
    (gs.Solve h n).1.VelocityDeltas = (gs.loopResult h n).vd := by
  rw [solve_of_ne gs h n hne]
  rfl

lemma solve_ad_of_ne (gs : GaussSeidel) (h : ℚ) (n : ℕ) (hne : gs.equations ≠ []) :
    (gs.Solve h n).1.AngularVelocityDeltas = (gs.loopResult h n).ad := by
  rw [solve_of_ne gs h n hne]
  rfl

lemma loopResult_items_map_eq (gs : GaussSeidel) (h : ℚ) (n : ℕ) :
    (gs.loopResult h n).items.map EqItem.eq = gs.equations := by
  unfold GaussSeidel.loopResult
  rw [solveLoop_items_map_eq, initItems_map_eq]

lemma loopResult_items_length (gs : GaussSeidel) (h : ℚ) (n : ℕ) :
    (gs.loopResult h n).items.length = gs.equations.length := by
  unfold GaussSeidel.loopResult
  rw [solveLoop_items_length, initItems_length]

/-- Fields of `Solve`'s output not overwritten by the call. -/
lemma solve_fst_maxIter (gs : GaussSeidel) (h : ℚ) (n : ℕ) :
    (gs.Solve h n).1.maxIter = gs.maxIter := by
  simp only [GaussSeidel.Solve]
  split <;> rfl

lemma solve_fst_tolerance (gs : GaussSeidel) (h : ℚ) (n : ℕ) :
    (gs.Solve h n).1.tolerance = gs.tolerance := by
  simp only [GaussSeidel.Solve]
  split <;> rfl

/-- Generic dependency lemma: `Solve` reads only `equations`, `maxIter` and
`tolerance` from the solver state. -/
lemma solve_depends_only (gs1 gs2 : GaussSeidel) (h : ℚ) (n : ℕ)
    (heqs : gs1.equations = gs2.equations) (hmi : gs1.maxIter = gs2.maxIter)
    (htol : gs1.tolerance = gs2.tolerance) :
    gs1.Solve h n = gs2.Solve h n := by
  obtain ⟨e1, m1, t1, a1, a2, a3, a4, a5⟩ := gs1
  obtain ⟨e2, m2, t2, c1, c2, c3, c4, c5⟩ := gs2
  simp only at heqs hmi htol
  subst heqs hmi htol
  exact solve_buffers_irrelevant e1 m1 t1 a1 a2 a3 a4 a5 c1 c2 c3 c4 c5 h n

/-- C3: with an empty equation list `Solve` returns 0, performs no
iteration, leaves the equations (hence every multiplier) untouched, and
leaves the Solution arrays zero-filled with length exactly `bodyCount`. -/
theorem gs_solve_empty_equations (gs : GaussSeidel) (h : ℚ) (n : ℕ)
    (he : gs.equations = []) :
    (gs.Solve h n).2 = 0 ∧
    (gs.Solve h n).1.equations = gs.equations ∧
    (gs.Solve h n).1.VelocityDeltas = List.replicate n Vector3.zero ∧
    (gs.Solve h n).1.AngularVelocityDeltas = List.replicate n Vector3.zero ∧
    (gs.Solve h n).1.VelocityDeltas.length = n ∧
    (gs.Solve h n).1.AngularVelocityDeltas.length = n := by
  rw [solve_of_empty gs h n he]
  simp

/-- Witness for C3 at a concrete input: the fresh solver has no equations,
`bodyCount = 2`. -/
theorem gs_solve_empty_equations_witness :
    (NewGaussSeidel.Solve 1 2).2 = 0 ∧
    (NewGaussSeidel.Solve 1 2).1.equations = NewGaussSeidel.equations ∧
    (NewGaussSeidel.Solve 1 2).1.VelocityDeltas = List.replicate 2 Vector3.zero ∧
    (NewGaussSeidel.Solve 1 2).1.AngularVelocityDeltas = List.replicate 2 Vector3.zero ∧
    (NewGaussSeidel.Solve 1 2).1.VelocityDeltas.length = 2 ∧
    (NewGaussSeidel.Solve 1 2).1.AngularVelocityDeltas.length = 2 :=
  gs_solve_empty_equations NewGaussSeidel 1 2 rfl

/-- C6: `Solve` is deterministic — two calls whose inputs agree (same
equation list with all coefficients, Jacobians and body data, same
`maxIter` and `tolerance`, same timestep and body count) produce identical
output states (Solution arrays and multipliers included) and the same
return value, whatever unrelated buffer contents the two solver values
hold. -/
theorem gs_solve_deterministic (gs1 gs2 : GaussSeidel) (h : ℚ) (n : ℕ)
    (heqs : gs1.equations = gs2.equations) (hmi : gs1.maxIter = gs2.maxIter)
    (htol : gs1.tolerance = gs2.tolerance) :
    gs1.Solve h n = gs2.Solve h n :=
  solve_depends_only gs1 gs2 h n heqs hmi htol

/-- An arbitrary nontrivial equation between two distinct movable bodies,
used by the determinism witness. -/
def eqC6 : Equation :=
  { bodyA := ⟨0, 1, Matrix3.zero⟩, bodyB := ⟨1, 1, Matrix3.zero⟩,
    computeC := 2, computeB := fun t => 3 * t, eps := 1 / 2,
    minForce := -5, maxForce := 5,
    jeA := ⟨⟨1, 0, 0⟩, ⟨0, 1, 0⟩⟩, jeB := ⟨⟨-1, 0, 0⟩, ⟨0, 0, 1⟩⟩, multiplier := 7 }

/-- Witness for C6 at concrete inputs: two solvers with the same equations,
`maxIter` and `tolerance` but different leftover buffer contents. -/
theorem gs_solve_deterministic_witness :
    GaussSeidel.Solve ⟨[eqC6], 10, 1 / 10000000, [⟨1, 2, 3⟩], [⟨4, 5, 6⟩], [7], [8], [9]⟩ 1 2 =
      GaussSeidel.Solve ⟨[eqC6], 10, 1 / 10000000, [], [], [], [], []⟩ 1 2 :=
  gs_solve_deterministic ⟨[eqC6], 10, 1 / 10000000, [⟨1, 2, 3⟩], [⟨4, 5, 6⟩], [7], [8], [9]⟩
    ⟨[eqC6], 10, 1 / 10000000, [], [], [], [], []⟩ 1 2 rfl rfl rfl

/-- C8: reset isolation — a `Solve` call performed on the state left behind
by an arbitrary previous `Solve` call (with the equation list replaced by
the new call's equations) gives exactly the same result as the same call
performed without the previous one: nothing left in the Solution arrays or
the `invC`/`b`/`lambda` working buffers by the first call reaches the
second, since every element used in a call is freshly computed. -/
theorem gs_reset_isolation (gs : GaussSeidel) (eqs2 : List Equation)
    (h1 h2 : ℚ) (n1 n2 : ℕ) :
    GaussSeidel.Solve { (gs.Solve h1 n1).1 with equations := eqs2 } h2 n2 =
      GaussSeidel.Solve { gs with equations := eqs2 } h2 n2 :=
  solve_depends_only _ _ h2 n2 rfl (solve_fst_maxIter gs h1 n1) (solve_fst_tolerance gs h1 n1)

/-- The `j`-th item of the loop result still carries the `j`-th input
equation. -/
lemma loopResult_items_getElem? (gs : GaussSeidel) (h : ℚ) (n j : ℕ)
    (hj : j < gs.equations.length) :
    ((gs.loopResult h n).items[j]?.map EqItem.eq) = some (gs.equations.getD j default) := by
  have h1 : ((gs.loopResult h n).items.map EqItem.eq)[j]? = gs.equations[j]? := by
    rw [loopResult_items_map_eq]
  rw [List.getElem?_map] at h1
  rw [h1, List.getD_eq_getElem?_getD, List.getElem?_eq_getElem hj]
  rfl

/-- Each output equation of a nonempty `Solve` is the corresponding input
equation with only its multiplier replaced by the resolved
`lambda[j] / h`. -/
lemma solve_equations_getD (gs : GaussSeidel) (h : ℚ) (n : ℕ) (hne : gs.equations ≠ [])
    (j : ℕ) (hj : j < gs.equations.length) :
    (gs.Solve h n).1.equations.getD j default =
      { gs.equations.getD j default with
        multiplier := (gs.Solve h n).1.solveLambda.getD j 0 / h } := by
  have hj' : j < (gs.loopResult h n).items.length := by
    rw [loopResult_items_length]; exact hj
  have h2 := loopResult_items_getElem? gs h n j hj
  rw [List.getElem?_eq_getElem hj'] at h2
  simp only [Option.map_some'] at h2
  rw [solve_equations_of_ne gs h n hne, solve_solveLambda_of_ne gs h n hne]
  simp only [List.getD_eq_getElem?_getD, List.getElem?_map, List.getElem?_eq_getElem hj',
    Option.map_some', Option.getD_some]
  have h4 : (gs.loopResult h n).items[j].eq = gs.equations[j]?.getD default := by
    injection h2 with h3
    rw [h3, List.getD_eq_getElem?_getD]
  rw [h4]

/-- C5: for every call with at least one equation, after the loop ends the
solver writes `multiplier = lambda[j] / h` onto every equation `j`, where
`lambda[j]` is that equation's final accumulated impulse (the `j`-th entry
of the final `solveLambda` buffer). -/
theorem gs_multiplier_writeback (gs : GaussSeidel) (h : ℚ) (n : ℕ)
    (hne : gs.equations ≠ []) :
    (gs.Solve h n).1.equations.length = gs.equations.length ∧
    ∀ j, j < gs.equations.length →
      ((gs.Solve h n).1.equations.getD j default).multiplier =
        (gs.Solve h n).1.solveLambda.getD j 0 / h := by
  constructor
  · rw [solve_equations_of_ne gs h n hne, List.length_map, loopResult_items_length]
  · intro j hj
    rw [solve_equations_getD gs h n hne j hj]

/-- A one-equation system used by the C5 witness. -/
def eqC5 : Equation :=
  { bodyA := ⟨0, 1, Matrix3.zero⟩, bodyB := ⟨0, 0, Matrix3.zero⟩,
    computeC := 1, computeB := fun t => t, eps := 0,
    minForce := -100, maxForce := 100,
    jeA := ⟨⟨1, 0, 0⟩, ⟨0, 0, 0⟩⟩, jeB := ⟨⟨0, 0, 0⟩, ⟨0, 0, 0⟩⟩, multiplier := 0 }

/-- A solver holding that system. -/
def gsC5 : GaussSeidel := { NewGaussSeidel with equations := [eqC5] }

/-- Witness for C5 at a concrete input (`h = 2`, equation index 0). -/
theorem gs_multiplier_writeback_witness :
    (gsC5.Solve 2 1).1.equations.length = gsC5.equations.length ∧
    ((gsC5.Solve 2 1).1.equations.getD 0 default).multiplier =
      (gsC5.Solve 2 1).1.solveLambda.getD 0 0 / 2 := by
  have hth := gs_multiplier_writeback gsC5 2 1 (by simp [gsC5])
  exact ⟨hth.1, hth.2 0 (by simp [gsC5])⟩

/-- C9: `Solve` writes only the `multiplier` field of each equation: every
other equation field — the body references (with their `index`,
`invMassSolve` and `invInertiaWorldSolve`), the coefficients `C`, `B`,
`eps`, `minForce`, `maxForce` and both Jacobian elements — is identical
before and after the call, for every equation. -/
theorem gs_frame_only_multiplier (gs : GaussSeidel) (h : ℚ) (n : ℕ) :
    (gs.Solve h n).1.equations.length = gs.equations.length ∧
    ∀ j, j < gs.equations.length →
      ((gs.Solve h n).1.equations.getD j default).bodyA = (gs.equations.getD j default).bodyA ∧
      ((gs.Solve h n).1.equations.getD j default).bodyB = (gs.equations.getD j default).bodyB ∧
      ((gs.Solve h n).1.equations.getD j default).computeC =
        (gs.equations.getD j default).computeC ∧
      ((gs.Solve h n).1.equations.getD j default).computeB =
        (gs.equations.getD j default).computeB ∧
      ((gs.Solve h n).1.equations.getD j default).eps = (gs.equations.getD j default).eps ∧
      ((gs.Solve h n).1.equations.getD j default).minForce =
        (gs.equations.getD j default).minForce ∧
      ((gs.Solve h n).1.equations.getD j default).maxForce =
        (gs.equations.getD j default).maxForce ∧
      ((gs.Solve h n).1.equations.getD j default).jeA = (gs.equations.getD j default).jeA ∧
      ((gs.Solve h n).1.equations.getD j default).jeB = (gs.equations.getD j default).jeB := by
  by_cases hne : gs.equations = []
  · constructor
    · rw [solve_of_empty gs h n hne]
    · intro j hj
      rw [hne] at hj
      simp at hj
  · constructor
    · rw [solve_equations_of_ne gs h n hne, List.length_map, loopResult_items_length]
    · intro j hj
      rw [solve_equations_getD gs h n hne j hj]
      exact ⟨rfl, rfl, rfl, rfl, rfl, rfl, rfl, rfl, rfl⟩

/-- A one-equation solver used by the C9 witness. -/
def gsC9 : GaussSeidel := { NewGaussSeidel with equations := [eqC6] }

/-- Witness for C9 at a concrete input (equation index 0). -/
theorem gs_frame_only_multiplier_witness :
    ((gsC9.Solve 1 2).1.equations.getD 0 default).computeC =
      (gsC9.equations.getD 0 default).computeC ∧
    ((gsC9.Solve 1 2).1.equations.getD 0 default).minForce =
      (gsC9.equations.getD 0 default).minForce := by
  have hth := (gs_frame_only_multiplier gsC9 1 2).2 0 (by simp [gsC9])
  exact ⟨hth.2.2.1, hth.2.2.2.2.2.1⟩

/-- C10: with `maxIterations ≤ 0` and at least one equation, no iteration
pass runs, yet `Solve` still returns 1; every `lambda[j]` stays 0, every
multiplier is written as `0/h = 0` (timestep positive), and the Solution
arrays are zero-filled at length `bodyCount`. -/
theorem gs_zero_max_iterations (gs : GaussSeidel) (h : ℚ) (n : ℕ)
    (hmi : gs.maxIter ≤ 0) (hne : gs.equations ≠ []) (_hh : 0 < h) :
    (gs.Solve h n).2 = 1 ∧
    (gs.Solve h n).1.solveLambda = List.replicate gs.equations.length 0 ∧
    (∀ j, j < gs.equations.length →
      ((gs.Solve h n).1.equations.getD j default).multiplier = 0) ∧
    (gs.Solve h n).1.VelocityDeltas = List.replicate n Vector3.zero ∧
    (gs.Solve h n).1.AngularVelocityDeltas = List.replicate n Vector3.zero := by
  have htn : gs.maxIter.toNat = 0 := by omega
  have hloop : gs.loopResult h n =
      ⟨gs.initItems h, List.replicate n Vector3.zero, List.replicate n Vector3.zero, 0⟩ := by
    unfold GaussSeidel.loopResult
    rw [htn]
    rfl
  have hlam : (gs.Solve h n).1.solveLambda = List.replicate gs.equations.length 0 := by
    rw [solve_solveLambda_of_ne gs h n hne, hloop]
    simp only [GaussSeidel.initItems, List.map_map, Function.comp_def]
    rw [List.map_const']
  refine ⟨?_, hlam, ?_, ?_, ?_⟩
  · rw [solve_snd_of_ne gs h n hne]
    have : (solveLoop (gs.tolerance * gs.tolerance) gs.maxIter.toNat 0
        (gs.initState h n).items (gs.initState h n).vd (gs.initState h n).ad).iter = 0 := by
      rw [htn]
      rfl
    rw [this]
  · intro j hj
    rw [solve_equations_getD gs h n hne j hj, hlam]
    have : (List.replicate gs.equations.length (0 : ℚ)).getD j 0 = 0 := by
      simp [List.getD_eq_getElem?_getD, List.getElem?_replicate, hj]
    simp only [this]
    simp [zero_div]
  · rw [solve_vd_of_ne gs h n hne, hloop]
  · rw [solve_ad_of_ne gs h n hne, hloop]

/-- A one-equation solver with `maxIter = 0`, used by the C10 witness. -/
def gsC10 : GaussSeidel := { NewGaussSeidel with equations := [eqC5], maxIter := 0 }

/-- Witness for C10 at a concrete input. -/
theorem gs_zero_max_iterations_witness :
    (gsC10.Solve 1 1).2 = 1 ∧
    (gsC10.Solve 1 1).1.solveLambda = List.replicate gsC10.equations.length 0 ∧
    (gsC10.Solve 1 1).1.VelocityDeltas = List.replicate 1 Vector3.zero := by
  have hth := gs_zero_max_iterations gsC10 1 1 (by decide) (by simp [gsC10]) (by norm_num)
  exact ⟨hth.1, hth.2.1, hth.2.2.2.1⟩

/-- The clamped update always lands the new accumulated impulse inside the
box `[minForce, maxForce]`, whatever the unclamped update was. -/
lemma gsClamp_bounds (eq : Equation) (lamJ dl : ℚ) (hm : eq.minForce ≤ eq.maxForce) :
    eq.minForce ≤ lamJ + gsClampDeltaLambda eq lamJ dl ∧
    lamJ + gsClampDeltaLambda eq lamJ dl ≤ eq.maxForce := by
  unfold gsClampDeltaLambda
  split_ifs with h1 h2
  · constructor <;> linarith
  · constructor <;> linarith
  · constructor <;> linarith

/-- After one pass, every item whose equation has a well-ordered box holds
a lambda inside that box — whatever lambdas the items held before. -/
lemma solvePass_lam_mem :
    ∀ (items : List EqItem) (vd ad : List Vector3) (tot : ℚ),
      (∀ it ∈ items, it.eq.minForce ≤ it.eq.maxForce) →
      ∀ it2 ∈ (solvePass items vd ad tot).items,
        it2.eq.minForce ≤ it2.lam ∧ it2.lam ≤ it2.eq.maxForce := by
  intro items
  induction items with
  | nil =>
      intro vd ad tot _ it2 h2
      simp [solvePass] at h2
  | cons it rest ih =>
      intro vd ad tot hmm it2 h2
      simp only [solvePass, List.mem_cons] at h2
      rcases h2 with h2 | h2
      · subst h2
        exact gsClamp_bounds it.eq it.lam _ (hmm it (by simp))
      · exact ih _ _ _ (fun x hx => hmm x (List.mem_cons_of_mem _ hx)) it2 h2

/-- Transfers a per-equation property along the fact that a transformed
item list carries the same equations. -/
lemma forall_eq_of_map_eq (P : Equation → Prop) {l1 l2 : List EqItem}
    (hmap : l1.map EqItem.eq = l2.map EqItem.eq) (hp : ∀ it ∈ l2, P it.eq) :
    ∀ it ∈ l1, P it.eq := by
  intro it hit
  have hmem : it.eq ∈ l2.map EqItem.eq := by
    rw [← hmap]
    exact List.mem_map_of_mem _ hit
  obtain ⟨it2, hit2, he⟩ := List.mem_map.mp hmem
  exact he ▸ hp it2 hit2

/-- The loop preserves in-box lambdas. -/
lemma solveLoop_lam_pres (tolSq : ℚ) :
    ∀ (fuel iter : ℕ) (items : List EqItem) (vd ad : List Vector3),
      (∀ it ∈ items, it.eq.minForce ≤ it.eq.maxForce) →
      (∀ it ∈ items, it.eq.minForce ≤ it.lam ∧ it.lam ≤ it.eq.maxForce) →
      ∀ it2 ∈ (solveLoop tolSq fuel iter items vd ad).items,
        it2.eq.minForce ≤ it2.lam ∧ it2.lam ≤ it2.eq.maxForce := by
  intro fuel
  induction fuel with
  | zero => intro iter items vd ad _ hb it2 h2; exact hb it2 h2
  | succ fuel ih =>
      intro iter items vd ad hmm hb it2 h2
      simp only [solveLoop] at h2
      by_cases hc : (solvePass items vd ad 0).tot * (solvePass items vd ad 0).tot < tolSq
      · rw [if_pos hc] at h2
        exact solvePass_lam_mem items vd ad 0 hmm it2 h2
      · rw [if_neg hc] at h2
        exact ih (iter + 1) _ _ _
          (forall_eq_of_map_eq (fun e => e.minForce ≤ e.maxForce)
            (solvePass_items_map_eq items vd ad 0) hmm)
          (solvePass_lam_mem items vd ad 0 hmm) it2 h2

/-- With at least one iteration of fuel, the loop output lambdas are in
their boxes whatever the input lambdas were. -/
lemma solveLoop_lam_mem (tolSq : ℚ) (fuel iter : ℕ) (items : List EqItem)
    (vd ad : List Vector3)
    (hmm : ∀ it ∈ items, it.eq.minForce ≤ it.eq.maxForce) :
    ∀ it2 ∈ (solveLoop tolSq (fuel + 1) iter items vd ad).items,
      it2.eq.minForce ≤ it2.lam ∧ it2.lam ≤ it2.eq.maxForce := by
  intro it2 h2
  simp only [solveLoop] at h2
  by_cases hc : (solvePass items vd ad 0).tot * (solvePass items vd ad 0).tot < tolSq
  · rw [if_pos hc] at h2
    exact solvePass_lam_mem items vd ad 0 hmm it2 h2
  · rw [if_neg hc] at h2
    exact solveLoop_lam_pres tolSq fuel (iter + 1) _ _ _
      (forall_eq_of_map_eq (fun e => e.minForce ≤ e.maxForce)
        (solvePass_items_map_eq items vd ad 0) hmm)
      (solvePass_lam_mem items vd ad 0 hmm) it2 h2

/-- C2: for every equation with `minForce ≤ maxForce`, each per-equation
update clamps the accumulated impulse into `[minForce, maxForce]`
(whatever the unclamped update was), and hence — with at least one
iteration configured, so that every equation is updated at least once —
the resolved lambda of every equation after `Solve` lies in its interval;
in particular it is `≥ 0` whenever `minForce = 0`. -/
theorem gs_clamp_lambda_bounds (gs : GaussSeidel) (h : ℚ) (n : ℕ)
    (hmm : ∀ e ∈ gs.equations, e.minForce ≤ e.maxForce)
    (hiter : 1 ≤ gs.maxIter) :
    (∀ (it : EqItem) (vd ad : List Vector3), it.eq.minForce ≤ it.eq.maxForce →
      it.eq.minForce ≤ (solveEquationStep it vd ad).item.lam ∧
      (solveEquationStep it vd ad).item.lam ≤ it.eq.maxForce) ∧
    ∀ j, j < gs.equations.length →
      (gs.equations.getD j default).minForce ≤ (gs.Solve h n).1.solveLambda.getD j 0 ∧
      (gs.Solve h n).1.solveLambda.getD j 0 ≤ (gs.equations.getD j default).maxForce := by
  constructor
  · intro it vd ad hm
    exact gsClamp_bounds it.eq it.lam _ hm
  · intro j hj
    have hne : gs.equations ≠ [] := by
      intro he
      rw [he] at hj
      simp at hj
    have hj' : j < (gs.loopResult h n).items.length := by
      rw [loopResult_items_length]
      exact hj
    obtain ⟨f, hf⟩ : ∃ f, gs.maxIter.toNat = f + 1 := ⟨gs.maxIter.toNat - 1, by omega⟩
    have hmm' : ∀ it ∈ gs.initItems h, it.eq.minForce ≤ it.eq.maxForce := by
      intro it hit
      rw [GaussSeidel.initItems] at hit
      obtain ⟨e, he, rfl⟩ := List.mem_map.mp hit
      exact hmm e he
    have hbounds : ∀ it2 ∈ (gs.loopResult h n).items,
        it2.eq.minForce ≤ it2.lam ∧ it2.lam ≤ it2.eq.maxForce := by
      unfold GaussSeidel.loopResult
      rw [hf]
      exact solveLoop_lam_mem _ f 0 _ _ _ hmm'
    have hitem := hbounds ((gs.loopResult h n).items.get ⟨j, hj'⟩) (List.get_mem _ _ hj')
    have heq : ((gs.loopResult h n).items.get ⟨j, hj'⟩).eq = gs.equations.getD j default := by
      have h2 := loopResult_items_getElem? gs h n j hj
      rw [List.getElem?_eq_getElem hj'] at h2
      simpa using h2
    have hlam : (gs.Solve h n).1.solveLambda.getD j 0 =
        ((gs.loopResult h n).items.get ⟨j, hj'⟩).lam := by
      rw [solve_solveLambda_of_ne gs h n hne, List.getD_eq_getElem?_getD,
        List.getElem?_map, List.getElem?_eq_getElem hj']
      simp
    rw [hlam, ← heq]
    exact hitem

/-- A unilateral contact-style equation whose unclamped first update would
be `-3`: the clamp must hold the impulse at `minForce = 0`. -/
def eqC2 : Equation :=
  { bodyA := ⟨0, 0, Matrix3.zero⟩, bodyB := ⟨0, 0, Matrix3.zero⟩,
    computeC := 1, computeB := fun _ => -3, eps := 0,
    minForce := 0, maxForce := 1000,
    jeA := ⟨⟨1, 0, 0⟩, ⟨0, 0, 0⟩⟩, jeB := ⟨⟨0, 0, 0⟩, ⟨0, 0, 0⟩⟩, multiplier := 0 }

/-- A solver holding that system. -/
def gsC2 : GaussSeidel := { NewGaussSeidel with equations := [eqC2] }

/-- Witness for C2 at a concrete input: the resolved lambda of the
unilateral equation of `gsC2` lies in `[0, 1000]`. -/
theorem gs_clamp_lambda_bounds_witness :
    (gsC2.equations.getD 0 default).minForce ≤ (gsC2.Solve 1 1).1.solveLambda.getD 0 0 ∧
    (gsC2.Solve 1 1).1.solveLambda.getD 0 0 ≤ (gsC2.equations.getD 0 default).maxForce :=
  (gs_clamp_lambda_bounds gsC2 1 1
    (by
      intro e he
      simp only [gsC2] at he
      rw [List.mem_singleton] at he
      subst he
      norm_num [eqC2])
    (by decide)).2 0 (by simp [gsC2])

/-- A scaled vector with factor 0 is the zero vector. -/
lemma Vector3.multiplyScalar_zero (v : Vector3) : v.multiplyScalar 0 = Vector3.zero := by
  simp [Vector3.multiplyScalar, Vector3.zero]

/-- Scaling the zero vector gives the zero vector. -/
lemma Vector3.zero_multiplyScalar (s : ℚ) : Vector3.zero.multiplyScalar s = Vector3.zero := by
  simp [Vector3.multiplyScalar, Vector3.zero]

/-- Adding the zero vector changes nothing. -/
lemma Vector3.add_zero (v : Vector3) : v.add Vector3.zero = v := by
  simp [Vector3.add, Vector3.zero]

/-- The zero matrix maps every vector to the zero vector. -/
lemma Vector3.applyMatrix3_zeroM (v : Vector3) :
    v.applyMatrix3 Matrix3.zero = Vector3.zero := by
  simp [Vector3.applyMatrix3, Matrix3.zero, Vector3.zero]

/-- Reading index `i` from a zero-filled array gives the zero vector,
in or out of range. -/
lemma getD_replicate_zero (n i : ℕ) :
    (List.replicate n Vector3.zero).getD i Vector3.zero = Vector3.zero := by
  rw [List.getD_eq_getElem?_getD, List.getElem?_replicate]
  split
  · rfl
  · rfl

/-- The equation references body index `i` only through fixed-body data:
whenever `bodyA` or `bodyB` sits at index `i`, it has zero inverse mass
and zero inverse inertia. -/
def FixedAt (i : ℕ) (e : Equation) : Prop :=
  (e.bodyA.index = i →
    e.bodyA.invMassSolve = 0 ∧ e.bodyA.invInertiaWorldSolve = Matrix3.zero) ∧
  (e.bodyB.index = i →
    e.bodyB.invMassSolve = 0 ∧ e.bodyB.invInertiaWorldSolve = Matrix3.zero)

/-- A read-modify-write `l[jdx] += (l[jdx] + y)`-style update keeps slot `i`
zero as long as the added contribution at `i` is zero. -/
lemma getD_set_add_pres (l : List Vector3) (i jdx : ℕ) (y : Vector3)
    (hl : l.getD i Vector3.zero = Vector3.zero)
    (hy : jdx = i → y = Vector3.zero) :
    (l.set jdx ((l.getD jdx Vector3.zero).add y)).getD i Vector3.zero = Vector3.zero := by
  by_cases hji : jdx = i
  · subst hji
    rw [hy rfl, Vector3.add_zero, hl]
    exact getD_set_default l jdx Vector3.zero
  · rw [getD_set_ne l jdx i _ _ (fun he => hji he.symm)]
    exact hl

/-- One equation step cannot move a body slot whose equation only carries
fixed-body data at that slot. -/
lemma solveEquationStep_zero_at (i : ℕ) (it : EqItem) (vd ad : List Vector3)
    (hfix : FixedAt i it.eq)
    (hv : vd.getD i Vector3.zero = Vector3.zero)
    (ha : ad.getD i Vector3.zero = Vector3.zero) :
    (solveEquationStep it vd ad).vd.getD i Vector3.zero = Vector3.zero ∧
    (solveEquationStep it vd ad).ad.getD i Vector3.zero = Vector3.zero := by
  constructor
  · simp only [solveEquationStep]
    apply getD_set_add_pres
    · apply getD_set_add_pres
      · exact hv
      · intro hAi
        rw [(hfix.1 hAi).1, zero_mul, Vector3.multiplyScalar_zero]
    · intro hBi
      rw [(hfix.2 hBi).1, zero_mul, Vector3.multiplyScalar_zero]
  · simp only [solveEquationStep]
    apply getD_set_add_pres
    · apply getD_set_add_pres
      · exact ha
      · intro hAi
        rw [(hfix.1 hAi).2, Vector3.applyMatrix3_zeroM, Vector3.zero_multiplyScalar]
    · intro hBi
      rw [(hfix.2 hBi).2, Vector3.applyMatrix3_zeroM, Vector3.zero_multiplyScalar]

/-- A whole pass preserves a zero fixed-body slot. -/
lemma solvePass_zero_at (i : ℕ) :
    ∀ (items : List EqItem) (vd ad : List Vector3) (tot : ℚ),
      (∀ it ∈ items, FixedAt i it.eq) →
      vd.getD i Vector3.zero = Vector3.zero →
      ad.getD i Vector3.zero = Vector3.zero →
      (solvePass items vd ad tot).vd.getD i Vector3.zero = Vector3.zero ∧
      (solvePass items vd ad tot).ad.getD i Vector3.zero = Vector3.zero := by
  intro items
  induction items with
  | nil => intro vd ad tot _ hv ha; exact ⟨hv, ha⟩
  | cons it rest ih =>
      intro vd ad tot hfix hv ha
      have hstep := solveEquationStep_zero_at i it vd ad (hfix it (by simp)) hv ha
      simp only [solvePass]
      exact ih _ _ _ (fun x hx => hfix x (List.mem_cons_of_mem _ hx)) hstep.1 hstep.2

/-- The whole loop preserves a zero fixed-body slot. -/
lemma solveLoop_zero_at (i : ℕ) (tolSq : ℚ) :
    ∀ (fuel iter : ℕ) (items : List EqItem) (vd ad : List Vector3),
      (∀ it ∈ items, FixedAt i it.eq) →
      vd.getD i Vector3.zero = Vector3.zero →
      ad.getD i Vector3.zero = Vector3.zero →
      (solveLoop tolSq fuel iter items vd ad).vd.getD i Vector3.zero = Vector3.zero ∧
      (solveLoop tolSq fuel iter items vd ad).ad.getD i Vector3.zero = Vector3.zero := by
  intro fuel
  induction fuel with
  | zero => intro iter items vd ad _ hv ha; exact ⟨hv, ha⟩
  | succ fuel ih =>
      intro iter items vd ad hfix hv ha
      have hpass := solvePass_zero_at i items vd ad 0 hfix hv ha
      simp only [solveLoop]
      split
      · exact hpass
      · exact ih (iter + 1) _ _ _
          (forall_eq_of_map_eq (FixedAt i) (solvePass_items_map_eq items vd ad 0) hfix)
          hpass.1 hpass.2

/-- C7: a body slot `i` that every equation references only with zero
inverse mass and zero inverse inertia keeps a zero velocity delta and a
zero angular-velocity delta after `Solve`, however many equations
reference it. -/
theorem gs_fixed_body_invariance (gs : GaussSeidel) (h : ℚ) (n : ℕ) (i : ℕ)
    (hfix : ∀ e ∈ gs.equations, FixedAt i e) :
    (gs.Solve h n).1.VelocityDeltas.getD i Vector3.zero = Vector3.zero ∧
    (gs.Solve h n).1.AngularVelocityDeltas.getD i Vector3.zero = Vector3.zero := by
  by_cases hne : gs.equations = []
  · rw [solve_of_empty gs h n hne]
    exact ⟨getD_replicate_zero n i, getD_replicate_zero n i⟩
  · rw [solve_vd_of_ne gs h n hne, solve_ad_of_ne gs h n hne]
    have hfixItems : ∀ it ∈ gs.initItems h, FixedAt i it.eq := by
      intro it hit
      rw [GaussSeidel.initItems] at hit
      obtain ⟨e, he, rfl⟩ := List.mem_map.mp hit
      exact hfix e he
    unfold GaussSeidel.loopResult
    exact solveLoop_zero_at i (gs.tolerance * gs.tolerance) gs.maxIter.toNat 0
      (gs.initItems h) _ _ hfixItems (getD_replicate_zero n i) (getD_replicate_zero n i)

/-- An equation referencing the fixed body 0 (zero inverse mass, zero
inverse inertia) with large Jacobians and bias, used by the C7 witness. -/
def eqC7 : Equation :=
  { bodyA := ⟨0, 0, Matrix3.zero⟩, bodyB := ⟨0, 0, Matrix3.zero⟩,
    computeC := 1, computeB := fun _ => 100, eps := 0,
    minForce := -1000, maxForce := 1000,
    jeA := ⟨⟨1, 2, 3⟩, ⟨4, 5, 6⟩⟩, jeB := ⟨⟨7, 8, 9⟩, ⟨1, 1, 1⟩⟩, multiplier := 0 }

/-- A solver holding that system. -/
def gsC7 : GaussSeidel := { NewGaussSeidel with equations := [eqC7] }

/-- Witness for C7 at a concrete input: body slot 0 of `gsC7` keeps zero
deltas. -/
theorem gs_fixed_body_invariance_witness :
    (gsC7.Solve 1 1).1.VelocityDeltas.getD 0 Vector3.zero = Vector3.zero ∧
    (gsC7.Solve 1 1).1.AngularVelocityDeltas.getD 0 Vector3.zero = Vector3.zero :=
  gs_fixed_body_invariance gsC7 1 1 0
    (by
      intro e he
      simp only [gsC7] at he
      rw [List.mem_singleton] at he
      subst he
      exact ⟨fun _ => ⟨rfl, rfl⟩, fun _ => ⟨rfl, rfl⟩⟩)

/-- C4: the Gauss-Seidel update structure.  Within an iteration, the pass
processes the equations strictly in list order, handing each later
equation the delta arrays already updated by the earlier ones; the update
of equation `j` reads the current deltas of its two bodies, forms
`GWlambda` as the dot product of the two 6-component Jacobian rows `JeA`,
`JeB` with the bodies' current 6-component (velocity, angular velocity)
delta state, and accumulates the clamped
`deltaLambda = invC[j] * (b[j] - GWlambda - eps_j * lambda[j])`; the
coefficients `invC[j] = 1/C_j` and `b[j] = B_j(h)` are precomputed once
per equation, in equation order, and are never changed by the passes. -/
theorem gs_gauss_seidel_update_structure :
    (∀ (eq : Equation) (vA wA vB wB : Vector3),
      gsGWlambda eq vA wA vB wB =
        eq.jeA.spatial.dot vA + eq.jeA.rotational.dot wA +
          eq.jeB.spatial.dot vB + eq.jeB.rotational.dot wB) ∧
    (∀ invC b epsJ lamJ gw : ℚ,
      gsDeltaLambdaUnclamped invC b epsJ lamJ gw = invC * (b - gw - epsJ * lamJ)) ∧
    (∀ (it : EqItem) (vd ad : List Vector3),
      (solveEquationStep it vd ad).item.lam =
        it.lam + gsClampDeltaLambda it.eq it.lam
          (gsDeltaLambdaUnclamped it.invC it.b it.eq.eps it.lam
            (gsGWlambda it.eq (vd.getD it.eq.bodyA.index Vector3.zero)
              (ad.getD it.eq.bodyA.index Vector3.zero)
              (vd.getD it.eq.bodyB.index Vector3.zero)
              (ad.getD it.eq.bodyB.index Vector3.zero)))) ∧
    (∀ (it : EqItem) (rest : List EqItem) (vd ad : List Vector3) (tot : ℚ),
      solvePass (it :: rest) vd ad tot =
        (let o := solveEquationStep it vd ad
         let r := solvePass rest o.vd o.ad (tot + o.dAbs)
         ⟨o.item :: r.items, r.vd, r.ad, r.tot⟩)) ∧
    (∀ (items : List EqItem) (vd ad : List Vector3) (tot : ℚ),
      (solvePass items vd ad tot).items.map EqItem.invC = items.map EqItem.invC ∧
      (solvePass items vd ad tot).items.map EqItem.b = items.map EqItem.b) ∧
    (∀ (gs : GaussSeidel) (h : ℚ),
      gs.initItems h =
        gs.equations.map (fun e => ⟨e, 1 / e.computeC, e.computeB h, 0⟩)) := by
  refine ⟨?_, ?_, ?_, ?_, ?_, ?_⟩
  · intro eq vA wA vB wB
    simp only [gsGWlambda, JacobianElement.multiplyVectors]
    ring
  · intro invC b epsJ lamJ gw
    rfl
  · intro it vd ad
    exact solveEquationStep_item_lam it vd ad
  · intro it rest vd ad tot
    rfl
  · intro items vd ad tot
    exact ⟨solvePass_items_map_invC items vd ad tot, solvePass_items_map_b items vd ad tot⟩
  · intro gs h
    rfl

end GSolver
